import Mathlib

/-!
Verification of the PatrickStar chunk-eviction core: a shallow embedding of
`patrickstar/core/eviction_policy.py`, `patrickstar/core/parameter.py` and
`patrickstar/core/comm.py`, followed by theorems settling the spec claims.

Python dicts are embedded as association lists, a raised exception as `none`
of an `Option` result, and `queue.PriorityQueue` drained to emptiness as a
sort by the queue's (ascending lexicographic) tuple order — the order is
linear, so the sorted permutation the heap yields is unique.
-/

namespace PatrickStar

/-- Modelled from the spec: chunk lifecycle states of `patrickstar/core/const.py`
(the file is absent from the sources; §3 lists
`{FREE, HOLD, COMPUTE, HOLD_AFTER_FWD, HOLD_AFTER_BWD, RELEASED}`). -/
inductive ChunkState where
  | FREE
  | HOLD
  | COMPUTE
  | HOLD_AFTER_FWD
  | HOLD_AFTER_BWD
  | RELEASED
deriving DecidableEq, Repr

/-- Modelled from the spec: per-tensor lifecycle states of
`patrickstar/core/const.py` (absent from the sources; §3 says the tensor state
mirrors a subset of the chunk states). -/
inductive TensorState where
  | FREE
  | HOLD
  | COMPUTE
  | HOLD_AFTER_FWD
  | HOLD_AFTER_BWD
  | RELEASED
deriving DecidableEq, Repr

/-- Modelled from the spec: `AccessType` of `patrickstar/core/const.py`
(absent from the sources; `parameter.py` uses members `DATA` and `GRAD`). -/
inductive AccessType where
  | DATA
  | GRAD
deriving DecidableEq, Repr

/-- Modelled from the spec: `ParamType` of `patrickstar/core/const.py`
(absent from the sources; `parameter.py` uses members `TORCH_BASED` and
`CHUNK_BASED`). -/
inductive ParamType where
  | TORCH_BASED
  | CHUNK_BASED
deriving DecidableEq, Repr

/-- A `torch.device` kind (`cpu` or `cuda`), the `.type` field of a device. -/
inductive DevType where
  | cpu
  | cuda
deriving DecidableEq, Repr

/-- A `torch.device`: a type together with an index, as in
`device(type='cuda', index=0)` (the key shape named in the source's TODO
comment in `eviction_policy.py`). -/
structure Device where
  type : DevType
  index : Nat
deriving DecidableEq, Repr

/-- Modelled from the spec: the `Metronome` of `patrickstar/core/memtracer.py`
(absent from the sources). §3-§4.3 describe it as a warm-up flag, a current
moment counter and a total-moment count; the eviction policy reads it through
`is_warmup()`, `moment()` and `_total_moment`. -/
structure Metronome where
  warmup : Bool
  mom : Nat
  total_moment : Nat
deriving DecidableEq, Repr

/-- Association-list lookup, the embedding of `d[k]` / `k in d` on a Python
dict. -/
def alookup {κ ν : Type} [DecidableEq κ] : List (κ × ν) → κ → Option ν
  | [], _ => none
  | (k, v) :: rest, q => if k = q then some v else alookup rest q

/-- Association-list update, the embedding of `d[k] = v` on a Python dict. -/
def aset {κ ν : Type} [DecidableEq κ] : List (κ × ν) → κ → ν → List (κ × ν)
  | [], q, v => [(q, v)]
  | (k, w) :: rest, q, v =>
      if k = q then (k, v) :: rest else (k, w) :: aset rest q v

/-- State of `ChunkEvictionPolicyBase`: the two trace dicts plus the
metronome it was constructed with. -/
structure EvictState where
  chunk_access_dict : List ((Nat × Device) × List Nat)
  chunk_release_dict : List ((Nat × Device) × List Nat)
  metronome : Metronome
deriving DecidableEq, Repr

/-- Ascending sort of a list of naturals, the embedding of Python
`list.sort()` (any sorted permutation is the same list, since `≤` on `Nat`
is linear). -/
def pySort (l : List Nat) : List Nat :=
  List.insertionSort (· ≤ ·) l

/-- `ChunkEvictionPolicyBase.trace_access`: outside warm-up do nothing;
otherwise record the current moment for `(chunk_id, dev)` in
`chunk_access_dict`, appending and re-sorting when the key exists. -/
def trace_access (st : EvictState) (chunk_id : Nat) (dev : Device) : EvictState :=
  if ¬ st.metronome.warmup then st
  else
    let cur_mom := st.metronome.mom
    match alookup st.chunk_access_dict (chunk_id, dev) with
    | none =>
        { st with
            chunk_access_dict :=
              aset st.chunk_access_dict (chunk_id, dev) [cur_mom] }
    | some l =>
        { st with
            chunk_access_dict :=
              aset st.chunk_access_dict (chunk_id, dev)
                (pySort (l ++ [cur_mom])) }

/-- `ChunkEvictionPolicyBase.trace_release`: outside warm-up do nothing;
otherwise the source tests membership of `(chunk_id, dev)` in
`chunk_access_dict` (not the release dict) and then writes to
`chunk_release_dict`; when the key is present in the access dict but absent
from the release dict, `self.chunk_release_dict[(chunk_id, dev)].append(...)`
raises `KeyError`, embedded as `none`. -/
def trace_release (st : EvictState) (chunk_id : Nat) (dev : Device) :
    Option EvictState :=
  if ¬ st.metronome.warmup then some st
  else
    let cur_mom := st.metronome.mom
    match alookup st.chunk_access_dict (chunk_id, dev) with
    | none =>
        some { st with
                chunk_release_dict :=
                  aset st.chunk_release_dict (chunk_id, dev) [cur_mom] }
    | some _ =>
        match alookup st.chunk_release_dict (chunk_id, dev) with
        | none => none
        | some l =>
            some { st with
                    chunk_release_dict :=
                      aset st.chunk_release_dict (chunk_id, dev)
                        (pySort (l ++ [cur_mom])) }

/-- First element of the list strictly greater than `cur`, the embedding of
the `for mom in access_mom_list: if mom > cur_mom: return mom` scan. -/
def firstGreater : List Nat → Nat → Option Nat
  | [], _ => none
  | m :: rest, cur => if cur < m then some m else firstGreater rest cur

/-- `ChunkEvictionPolicyBase._chunk_next_used_moment`: `0` during warm-up;
`2 * total_moment` for a pair absent from `chunk_access_dict`; otherwise the
first recorded moment beyond the current one, wrapping to
`total_moment + access_mom_list[0]`. -/
def chunk_next_used_moment (st : EvictState) (chunk_id : Nat) (dev : Device) :
    Nat :=
  if st.metronome.warmup then 0
  else
    let cur_mom := st.metronome.mom
    let total_mom := st.metronome.total_moment
    match alookup st.chunk_access_dict (chunk_id, dev) with
    | none => 2 * total_mom
    | some access_mom_list =>
        match firstGreater access_mom_list cur_mom with
        | some m => m
        | none => total_mom + access_mom_list.headD 0

/-- The chunk fields read by `derive_eviction_list`: `get_device()`,
`get_state()`, `is_pin()` and `get_payload_space()`. -/
structure Chunk where
  device : Option Device
  state : ChunkState
  pinned : Bool
  payload_space : Nat
deriving DecidableEq, Repr

/-- The candidate filter of `LatestAccessChunkEvictionPolicy
.derive_eviction_list`: device present and of the target's type, state not
`COMPUTE`/`RELEASED`/`FREE`, not pinned. -/
def eligibleB (target_device : Device) (c : Chunk) : Bool :=
  match c.device with
  | none => false
  | some d =>
      d.type = target_device.type ∧ c.state ≠ ChunkState.COMPUTE ∧
        c.state ≠ ChunkState.RELEASED ∧ c.state ≠ ChunkState.FREE ∧
        c.pinned = false

/-- Ascending lexicographic order on the `(-next_mom, chunk_id)` tuples put
into the `PriorityQueue`: Python compares tuples lexicographically and the
queue yields the least remaining tuple. -/
def pairLeP (a b : Int × Nat) : Prop :=
  a.1 < b.1 ∨ (a.1 = b.1 ∧ a.2 ≤ b.2)

instance : DecidableRel pairLeP := fun a b => by
  unfold pairLeP
  infer_instance

instance : IsTrans (Int × Nat) pairLeP :=
  ⟨fun a b c h1 h2 => by
    unfold pairLeP at h1 h2 ⊢
    omega⟩

instance : IsTotal (Int × Nat) pairLeP :=
  ⟨fun a b => by
    unfold pairLeP
    omega⟩

/-- The queue contents: one `(-next_mom, chunk_id)` tuple per eligible entry
of `id_to_chunk_map`. -/
def evictKeys (st : EvictState) (id_to_chunk_map : List (Nat × Chunk))
    (target_device : Device) : List (Int × Nat) :=
  (id_to_chunk_map.filter (fun p => eligibleB target_device p.2)).map
    (fun p => (-(chunk_next_used_moment st p.1 target_device : Int), p.1))

/-- The chunk ids in the order the `PriorityQueue` yields them: sorted
ascending by `(-next_mom, chunk_id)`, i.e. descending predicted next access
with ties by ascending id. -/
def sortedEligibleIds (st : EvictState) (id_to_chunk_map : List (Nat × Chunk))
    (target_device : Device) : List Nat :=
  (List.insertionSort pairLeP (evictKeys st id_to_chunk_map target_device)).map
    Prod.snd

/-- `id_to_chunk_map[chunk_id].get_payload_space()`. -/
def payloadOf (id_to_chunk_map : List (Nat × Chunk)) (chunk_id : Nat) : Nat :=
  match alookup id_to_chunk_map chunk_id with
  | none => 0
  | some c => c.payload_space

/-- Total payload bytes of a list of chunk ids. -/
def sumPayload (id_to_chunk_map : List (Nat × Chunk)) (ids : List Nat) : Nat :=
  (ids.map (payloadOf id_to_chunk_map)).sum

/-- The drain loop of `derive_eviction_list`: pop, add the chunk's payload
bytes, append its id, and break once the accumulated bytes reach
`need_bytes`. -/
def evictLoop (id_to_chunk_map : List (Nat × Chunk)) (need_bytes : Nat) :
    List Nat → Nat → List Nat
  | [], _ => []
  | chunk_id :: rest, moved_bytes =>
      if need_bytes ≤ moved_bytes + payloadOf id_to_chunk_map chunk_id then
        [chunk_id]
      else
        chunk_id ::
          evictLoop id_to_chunk_map need_bytes rest
            (moved_bytes + payloadOf id_to_chunk_map chunk_id)

/-- `LatestAccessChunkEvictionPolicy.derive_eviction_list`: filter the
eligible chunks, order them by the priority queue, and accumulate until
`need_bytes` is reached or the candidates are exhausted (an insufficient
total is only logged, the list is returned normally). -/
def derive_eviction_list (st : EvictState) (id_to_chunk_map : List (Nat × Chunk))
    (need_bytes : Nat) (target_device : Device) : List Nat :=
  evictLoop id_to_chunk_map need_bytes
    (sortedEligibleIds st id_to_chunk_map target_device) 0

/-- `PSTensor`: the tensor reference (a payload handle, `none` for Python
`None`), the id drawn from the global counter, and the state. -/
structure PSTensor where
  tensor : Option Nat
  id : Nat
  state : TensorState
deriving DecidableEq, Repr

/-- `PSTensor.__init__` against an explicit global counter: tensor `None`,
id from the counter, state `FREE`, counter incremented. -/
def mkPSTensor (global_id : Nat) : PSTensor × Nat :=
  (⟨none, global_id, TensorState.FREE⟩, global_id + 1)

/-- A sequence of `n` `PSTensor` constructions starting from a counter
value, in creation order. -/
def mkPSTensors : Nat → Nat → List PSTensor
  | 0, _ => []
  | n + 1, c => (mkPSTensor c).1 :: mkPSTensors n (mkPSTensor c).2

/-- The fields of `PSParameter` that the state machinery touches: the param
type, the data `PSTensor` (created for every chunk-based param) and the grad
`PSTensor` (`none` when the param does not require grad). -/
structure PSParameter where
  param_type : ParamType
  data_tensor : PSTensor
  grad_tensor : Option PSTensor
deriving DecidableEq, Repr

/-- `PSParameter._access_ps_tensor`: `ValueError` (embedded as `none`) for a
torch-based param; otherwise the data or grad `PSTensor`. Accessing the grad
of a param without one yields the Python `None` attribute, on which the
callers' attribute accesses raise, likewise embedded as `none`. -/
def access_ps_tensor (p : PSParameter) (a : AccessType) : Option PSTensor :=
  match p.param_type with
  | ParamType.TORCH_BASED => none
  | ParamType.CHUNK_BASED =>
      match a with
      | AccessType.DATA => some p.data_tensor
      | AccessType.GRAD => p.grad_tensor

/-- `PSParameter.access_tensor`: the `.tensor` field of the resolved
`PSTensor`; the outer `Option` is the exception channel. -/
def access_tensor (p : PSParameter) (a : AccessType) : Option (Option Nat) :=
  (access_ps_tensor p a).map PSTensor.tensor

/-- The mutation `set_state` performs on the resolved `PSTensor`: store the
state, and clear the tensor reference unless the state is `COMPUTE`. -/
def setStateT (t : PSTensor) (s : TensorState) : PSTensor :=
  { t with
    state := s
    tensor := if s = TensorState.COMPUTE then t.tensor else none }

/-- `PSParameter.set_state`: resolve the `PSTensor` for the access type and
update it in place; `none` when the resolution raises. -/
def set_state (p : PSParameter) (s : TensorState) (a : AccessType) :
    Option PSParameter :=
  match p.param_type with
  | ParamType.TORCH_BASED => none
  | ParamType.CHUNK_BASED =>
      match a with
      | AccessType.DATA =>
          some { p with data_tensor := setStateT p.data_tensor s }
      | AccessType.GRAD =>
          match p.grad_tensor with
          | none => none
          | some t => some { p with grad_tensor := some (setStateT t s) }

/-- `CommGroupInfo`: chunk type tag and group id (the chunk type is embedded
as a natural tag). -/
structure CommGroupInfo where
  chunk_type : Nat
  id : Nat
deriving DecidableEq, Repr

/-- `CommInfo`: the group plus the rank offset. -/
structure CommInfo where
  group : CommGroupInfo
  offset : Nat
deriving DecidableEq, Repr

/-- `CommInfo.__init__` against an explicit world size: `assert offset <
get_world_size()` (an `AssertionError` is embedded as `none`), then store the
group and the offset. -/
def commInfoInit (world_size chunk_type group_id offset : Nat) :
    Option CommInfo :=
  if offset < world_size then
    some ⟨⟨chunk_type, group_id⟩, offset⟩
  else
    none

/-- The eviction ranking as the spec words it: descending predicted next
access, ties broken by ascending chunk id. -/
def evictOrder (st : EvictState) (target_device : Device) (a b : Nat) : Prop :=
  chunk_next_used_moment st b target_device <
      chunk_next_used_moment st a target_device ∨
    (chunk_next_used_moment st a target_device =
        chunk_next_used_moment st b target_device ∧ a ≤ b)

/-- The same eviction-policy state observed at another metronome moment. -/
def withMoment (st : EvictState) (n : Nat) : EvictState :=
  { st with metronome := { st.metronome with mom := n } }

/-- The devices `cuda:0` and `cuda:1`. -/
def dev0 : Device := ⟨DevType.cuda, 0⟩

/-- See `dev0`. -/
def dev1 : Device := ⟨DevType.cuda, 1⟩

/-- A fresh policy state still in warm-up. -/
def stWarm : EvictState := ⟨[], [], ⟨true, 0, 0⟩⟩

/-- A post-warm-up state: chunk `0` was accessed on `dev0` at moments `0`
and `2` during a warm-up of `3` moments; the current moment is `1`. -/
def stRun : EvictState := ⟨[((0, dev0), [0, 2])], [], ⟨false, 1, 3⟩⟩

/-- A single unpinned held chunk of `4` payload bytes resident on `dev0`. -/
def mapOne : List (Nat × Chunk) := [(1, ⟨some dev0, ChunkState.HOLD, false, 4⟩)]

/-- A single unpinned held chunk of `4` payload bytes resident on `dev1`. -/
def mapOff : List (Nat × Chunk) := [(7, ⟨some dev1, ChunkState.HOLD, false, 4⟩)]

/-- A chunk-based parameter with a live data payload handle and no grad. -/
def paramEx : PSParameter :=
  ⟨ParamType.CHUNK_BASED, ⟨some 5, 0, TensorState.HOLD⟩, none⟩

/-- `firstGreater` finds nothing when every element is at most `cur`. -/
theorem firstGreater_eq_none : ∀ {l : List Nat} {cur : Nat},
    (∀ m ∈ l, m ≤ cur) → firstGreater l cur = none
  | [], _, _ => rfl
  | a :: rest, cur, h => by
      have ha : ¬ cur < a := Nat.not_lt.mpr (h a (List.mem_cons_self a rest))
      simp only [firstGreater, if_neg ha]
      exact firstGreater_eq_none fun m hm => h m (List.mem_cons_of_mem _ hm)

/-- On a sorted list, `firstGreater` returns the least element strictly
greater than `cur`. -/
theorem firstGreater_least : ∀ {l : List Nat} {cur m : Nat},
    List.Pairwise (· ≤ ·) l → firstGreater l cur = some m →
    m ∈ l ∧ cur < m ∧ ∀ x ∈ l, cur < x → m ≤ x
  | [], _, _, _, h => by simp [firstGreater] at h
  | a :: rest, cur, m, hs, h => by
      by_cases hca : cur < a
      · simp only [firstGreater, if_pos hca, Option.some.injEq] at h
        subst h
        refine ⟨List.mem_cons_self _ _, hca, ?_⟩
        intro x hx _
        rcases List.mem_cons.mp hx with rfl | hx
        · exact le_refl _
        · exact (List.pairwise_cons.mp hs).1 x hx
      · simp only [firstGreater, if_neg hca] at h
        have hrest := firstGreater_least (List.pairwise_cons.mp hs).2 h
        refine ⟨List.mem_cons_of_mem _ hrest.1, hrest.2.1, ?_⟩
        intro x hx hcx
        rcases List.mem_cons.mp hx with rfl | hx
        · omega
        · exact hrest.2.2 x hx hcx

/-- Every id the drain loop emits came from its input list. -/
theorem evictLoop_subset : ∀ {ids : List Nat} {acc x : Nat}
    {m : List (Nat × Chunk)} {need : Nat},
    x ∈ evictLoop m need ids acc → x ∈ ids
  | [], _, _, _, _, h => by simp [evictLoop] at h
  | cid :: rest, acc, x, m, need, h => by
      by_cases hb : need ≤ acc + payloadOf m cid
      · simp only [evictLoop, if_pos hb, List.mem_singleton] at h
        simp [h]
      · simp only [evictLoop, if_neg hb, List.mem_cons] at h
        rcases h with rfl | h2
        · exact List.mem_cons_self _ _
        · exact List.mem_cons_of_mem _ (evictLoop_subset h2)

/-- When the accumulator is still short, the drain loop emits exactly the
shortest prefix whose accumulated bytes close the gap, or the whole list. -/
theorem evictLoop_take (m : List (Nat × Chunk)) (need : Nat) :
    ∀ (ids : List Nat) (acc : Nat), acc < need →
    ∃ k, k ≤ ids.length ∧ evictLoop m need ids acc = ids.take k ∧
      (need ≤ acc + sumPayload m (ids.take k) ∨ k = ids.length) ∧
      ∀ j, j < k → acc + sumPayload m (ids.take j) < need := by
  intro ids
  induction ids with
  | nil =>
      intro acc _
      exact ⟨0, Nat.le_refl _, rfl, Or.inr rfl, by omega⟩
  | cons cid rest ih =>
      intro acc h
      by_cases hb : need ≤ acc + payloadOf m cid
      · refine ⟨1, by simp, ?_, Or.inl ?_, ?_⟩
        · simp [evictLoop, hb]
        · simpa [sumPayload] using hb
        · intro j hj
          have hj0 : j = 0 := by omega
          subst hj0
          simpa [sumPayload] using h
      · obtain ⟨k, hk_le, hk_eq, hk_or, hk_min⟩ :=
          ih (acc + payloadOf m cid) (by omega)
        refine ⟨k + 1, by simpa using Nat.succ_le_succ hk_le, ?_, ?_, ?_⟩
        · simp [evictLoop, hb, hk_eq]
        · rcases hk_or with h1 | h1
          · left
            simp only [List.take_succ_cons, sumPayload, List.map_cons,
              List.sum_cons]
            simp only [sumPayload] at h1
            omega
          · right
            simp [h1]
        · intro j hj
          cases j with
          | zero => simpa [sumPayload] using h
          | succ j' =>
              have hj' := hk_min j' (by omega)
              simp only [sumPayload] at hj'
              simp only [List.take_succ_cons, sumPayload, List.map_cons,
                List.sum_cons]
              omega

/-- When even the whole list cannot close the gap, the drain loop emits the
whole list. -/
theorem evictLoop_all (m : List (Nat × Chunk)) (need : Nat) :
    ∀ (ids : List Nat) (acc : Nat), acc + sumPayload m ids < need →
    evictLoop m need ids acc = ids := by
  intro ids
  induction ids with
  | nil => intro acc _; rfl
  | cons cid rest ih =>
      intro acc h
      simp only [sumPayload, List.map_cons, List.sum_cons] at h
      have h1 : ¬ need ≤ acc + payloadOf m cid := by omega
      simp only [evictLoop, if_neg h1, List.cons.injEq, true_and]
      exact ih _ (by simp only [sumPayload]; omega)

/-- The queue order is a permutation of the filtered candidate ids. -/
theorem sortedEligibleIds_perm (st : EvictState) (m : List (Nat × Chunk))
    (target_device : Device) :
    (sortedEligibleIds st m target_device).Perm
      ((m.filter fun p => eligibleB target_device p.2).map Prod.fst) := by
  have h2 := (List.perm_insertionSort pairLeP
    (evictKeys st m target_device)).map Prod.snd
  have h3 : (evictKeys st m target_device).map Prod.snd =
      (m.filter fun p => eligibleB target_device p.2).map Prod.fst := by
    simp [evictKeys, List.map_map, Function.comp]
  rw [sortedEligibleIds]
  exact h3 ▸ h2

/-- Every tuple in the queue pairs the negated predicted next access of its
chunk id. -/
theorem evictKeys_fst {st : EvictState} {m : List (Nat × Chunk)}
    {target_device : Device} {q : Int × Nat}
    (h : q ∈ evictKeys st m target_device) :
    q.1 = -(chunk_next_used_moment st q.2 target_device : Int) := by
  simp only [evictKeys, List.mem_map, List.mem_filter] at h
  obtain ⟨p, _, rfl⟩ := h
  rfl

/-- The queue order lists the candidates by descending predicted next
access, ties by ascending chunk id. -/
theorem sortedEligibleIds_pairwise (st : EvictState) (m : List (Nat × Chunk))
    (target_device : Device) :
    (sortedEligibleIds st m target_device).Pairwise
      (evictOrder st target_device) := by
  have hs := List.sorted_insertionSort pairLeP (evictKeys st m target_device)
  have hmem : ∀ q ∈ List.insertionSort pairLeP (evictKeys st m target_device),
      q.1 = -(chunk_next_used_moment st q.2 target_device : Int) := by
    intro q hq
    exact evictKeys_fst ((List.mem_insertionSort pairLeP).mp hq)
  rw [sortedEligibleIds, List.pairwise_map]
  refine hs.imp_of_mem ?_
  intro a b ha hb hab
  have ha1 := hmem a ha
  have hb1 := hmem b hb
  unfold pairLeP at hab
  unfold evictOrder
  omega

/-- A chunk id in the eviction output names an eligible entry of the map. -/
theorem derive_mem_eligible {st : EvictState} {m : List (Nat × Chunk)}
    {need_bytes : Nat} {target_device : Device} {cid : Nat}
    (h : cid ∈ derive_eviction_list st m need_bytes target_device) :
    ∃ c, (cid, c) ∈ m ∧ eligibleB target_device c = true := by
  have h1 : cid ∈ sortedEligibleIds st m target_device :=
    evictLoop_subset h
  have h2 := (sortedEligibleIds_perm st m target_device).mem_iff.mp h1
  simp only [List.mem_map, List.mem_filter] at h2
  obtain ⟨p, ⟨hp, he⟩, rfl⟩ := h2
  exact ⟨p.2, hp, he⟩

/-- Every tensor in a construction run has an id at least the starting
counter. -/
theorem mkPSTensors_id_ge : ∀ (n c : Nat), ∀ t ∈ mkPSTensors n c, c ≤ t.id
  | 0, c, t, h => by simp [mkPSTensors] at h
  | n + 1, c, t, h => by
      simp only [mkPSTensors, mkPSTensor, List.mem_cons] at h
      rcases h with rfl | h2
      · exact Nat.le_refl _
      · have := mkPSTensors_id_ge n (c + 1) t h2
        omega

/-- When `firstGreater` finds nothing, every element is at most `cur`. -/
theorem firstGreater_none_forall : ∀ {l : List Nat} {cur : Nat},
    firstGreater l cur = none → ∀ m ∈ l, m ≤ cur
  | [], _, _, m, hm => by simp at hm
  | a :: rest, cur, h, m, hm => by
      by_cases hca : cur < a
      · simp [firstGreater, if_pos hca] at h
      · simp only [firstGreater, if_neg hca] at h
        rcases List.mem_cons.mp hm with rfl | hm2
        · omega
        · exact firstGreater_none_forall h m hm2

/-- Claim C1: `_chunk_next_used_moment` returns `0` during warm-up; after
warm-up it returns `2 * total_moment` for a pair absent from the access
dict, the least recorded moment strictly greater than the current moment
when the pair's ascending access list holds one, and otherwise wraps to
`total_moment` plus the first recorded moment of that list. -/
theorem c1_predict_next_access (st : EvictState) (cid : Nat) (dev : Device)
    (l : List Nat) :
    (st.metronome.warmup = true → chunk_next_used_moment st cid dev = 0) ∧
    (st.metronome.warmup = false →
      alookup st.chunk_access_dict (cid, dev) = none →
      chunk_next_used_moment st cid dev = 2 * st.metronome.total_moment) ∧
    (st.metronome.warmup = false →
      alookup st.chunk_access_dict (cid, dev) = some l →
      List.Pairwise (· ≤ ·) l →
      ((∃ m ∈ l, st.metronome.mom < m) →
        chunk_next_used_moment st cid dev ∈ l ∧
        st.metronome.mom < chunk_next_used_moment st cid dev ∧
        ∀ x ∈ l, st.metronome.mom < x →
          chunk_next_used_moment st cid dev ≤ x) ∧
      ((∀ m ∈ l, m ≤ st.metronome.mom) →
        chunk_next_used_moment st cid dev =
          st.metronome.total_moment + l.headD 0)) := by
  refine ⟨?_, ?_, ?_⟩
  · intro hw
    simp [chunk_next_used_moment, hw]
  · intro hw hl
    simp [chunk_next_used_moment, hw, hl]
  · intro hw hl hsort
    constructor
    · intro hex
      cases hfg : firstGreater l st.metronome.mom with
      | none =>
          obtain ⟨x, hx, hcx⟩ := hex
          exact absurd (firstGreater_none_forall hfg x hx) (by omega)
      | some m =>
          have hleast := firstGreater_least hsort hfg
          have hres : chunk_next_used_moment st cid dev = m := by
            simp [chunk_next_used_moment, hw, hl, hfg]
          rw [hres]
          exact hleast
    · intro hall
      have hfg : firstGreater l st.metronome.mom = none :=
        firstGreater_eq_none hall
      simp [chunk_next_used_moment, hw, hl, hfg]

/-- Witness for claim C1 at the concrete recorded state `stRun`: the pair
`(0, dev0)` with list `[0, 2]` at current moment `1` predicts `2`, and the
unrecorded pair `(9, dev0)` predicts `2 * 3`. -/
theorem c1_predict_next_access_witness :
    chunk_next_used_moment stRun 0 dev0 ∈ [0, 2] ∧
    stRun.metronome.mom < chunk_next_used_moment stRun 0 dev0 ∧
    chunk_next_used_moment stRun 9 dev0 = 2 * stRun.metronome.total_moment := by
  have h := c1_predict_next_access stRun 0 dev0 [0, 2]
  have h9 := c1_predict_next_access stRun 9 dev0 []
  have h1 := (h.2.2 rfl (by decide) (by decide)).1 ⟨2, by decide, by decide⟩
  exact ⟨h1.1, h1.2.1, h9.2.1 rfl (by decide)⟩

/-- Counterexample to claim C2 as stated: at `bytes_needed = 0` with one
eligible chunk the code still evicts that chunk, although the empty run of
the order already accumulates `≥ 0` bytes, so the output is not the minimum
such run. -/
theorem c2_counterexample :
    ¬ ∃ k, derive_eviction_list stRun mapOne 0 dev0 =
        (sortedEligibleIds stRun mapOne dev0).take k ∧
      (0 ≤ sumPayload mapOne ((sortedEligibleIds stRun mapOne dev0).take k) ∨
        k = (sortedEligibleIds stRun mapOne dev0).length) ∧
      ∀ j, j < k →
        sumPayload mapOne ((sortedEligibleIds stRun mapOne dev0).take j) < 0 := by
  rintro ⟨k, hk, -, hmin⟩
  have hne : derive_eviction_list stRun mapOne 0 dev0 = [1] := by decide
  cases k with
  | zero =>
      rw [hne] at hk
      simp at hk
  | succ k' => exact absurd (hmin 0 (Nat.succ_pos _)) (by decide)

/-- Claim C2 (amended): for every `bytes_needed ≥ 1`, the queue order is a
permutation of the eligible chunk ids, is sorted by descending predicted
next access with ties by ascending chunk id, and the output is its shortest
front run whose accumulated payload bytes reach `bytes_needed`, or the
whole order when the candidates are exhausted first. -/
theorem c2_eviction_shortest_run (st : EvictState)
    (m : List (Nat × Chunk)) (need_bytes : Nat) (target_device : Device)
    (hneed : 1 ≤ need_bytes) :
    (sortedEligibleIds st m target_device).Perm
      ((m.filter fun p => eligibleB target_device p.2).map Prod.fst) ∧
    (sortedEligibleIds st m target_device).Pairwise
      (evictOrder st target_device) ∧
    ∃ k, k ≤ (sortedEligibleIds st m target_device).length ∧
      derive_eviction_list st m need_bytes target_device =
        (sortedEligibleIds st m target_device).take k ∧
      (need_bytes ≤
          sumPayload m ((sortedEligibleIds st m target_device).take k) ∨
        k = (sortedEligibleIds st m target_device).length) ∧
      ∀ j, j < k →
        sumPayload m ((sortedEligibleIds st m target_device).take j) <
          need_bytes := by
  refine ⟨sortedEligibleIds_perm st m target_device,
    sortedEligibleIds_pairwise st m target_device, ?_⟩
  obtain ⟨k, h1, h2, h3, h4⟩ := evictLoop_take m need_bytes
    (sortedEligibleIds st m target_device) 0 (by omega)
  exact ⟨k, h1, h2, by simpa using h3, fun j hj => by simpa using h4 j hj⟩

/-- Witness for claim C2 (amended) at `stRun`, `mapOne`, `bytes_needed = 3`
on `dev0`. -/
theorem c2_eviction_shortest_run_witness :
    ∃ k, k ≤ (sortedEligibleIds stRun mapOne dev0).length ∧
      derive_eviction_list stRun mapOne 3 dev0 =
        (sortedEligibleIds stRun mapOne dev0).take k ∧
      (3 ≤ sumPayload mapOne ((sortedEligibleIds stRun mapOne dev0).take k) ∨
        k = (sortedEligibleIds stRun mapOne dev0).length) ∧
      ∀ j, j < k →
        sumPayload mapOne ((sortedEligibleIds stRun mapOne dev0).take j) < 3 :=
  (c2_eviction_shortest_run stRun mapOne 3 dev0 (by decide)).2.2

/-- Counterexample to claim C3 as stated: the filter compares only the
device type, so the chunk resident on `cuda:1` is evicted to make room on
the distinct target device `cuda:0`. -/
theorem c3_counterexample :
    7 ∈ derive_eviction_list stRun mapOff 1 dev0 ∧
    alookup mapOff 7 = some ⟨some dev1, ChunkState.HOLD, false, 4⟩ ∧
    dev1 ≠ dev0 := by decide

/-- Claim C3 (amended): a chunk id appears in the eviction output only if
the map holds it with a device of the same type as the target device, a
state outside `{COMPUTE, RELEASED, FREE}`, and no pin; in particular a
pinned chunk never appears. -/
theorem c3_eligibility (st : EvictState) (m : List (Nat × Chunk))
    (need_bytes : Nat) (target_device : Device) (cid : Nat)
    (h : cid ∈ derive_eviction_list st m need_bytes target_device) :
    ∃ c, (cid, c) ∈ m ∧
      (∃ d, c.device = some d ∧ d.type = target_device.type) ∧
      c.state ≠ ChunkState.COMPUTE ∧ c.state ≠ ChunkState.RELEASED ∧
      c.state ≠ ChunkState.FREE ∧ c.pinned = false := by
  obtain ⟨c, hc, he⟩ := derive_mem_eligible h
  refine ⟨c, hc, ?_⟩
  unfold eligibleB at he
  cases hd : c.device with
  | none => rw [hd] at he; simp at he
  | some d =>
      rw [hd] at he
      simp only [decide_eq_true_eq] at he
      exact ⟨⟨d, rfl, he.1⟩, he.2.1, he.2.2.1, he.2.2.2.1, he.2.2.2.2⟩

/-- Witness for claim C3 (amended): the chunk evicted from `mapOne` is held,
unpinned and on the target device type. -/
theorem c3_eligibility_witness :
    ∃ c, (1, c) ∈ mapOne ∧
      (∃ d, c.device = some d ∧ d.type = dev0.type) ∧
      c.state ≠ ChunkState.COMPUTE ∧ c.state ≠ ChunkState.RELEASED ∧
      c.state ≠ ChunkState.FREE ∧ c.pinned = false :=
  c3_eligibility stRun mapOne 3 dev0 1 (by decide)

/-- Counterexample to claim C4 as stated: for the recorded pair `(0, dev0)`
with list `[0, 2]` and `total_moment = 3`, the prediction at moment
`3 + 1` is `3` while the prediction at moment `1` is `2`. -/
theorem c4_counterexample :
    stRun.metronome.warmup = false ∧
    alookup stRun.chunk_access_dict (0, dev0) = some [0, 2] ∧
    1 < stRun.metronome.total_moment ∧
    chunk_next_used_moment
        (withMoment stRun (stRun.metronome.total_moment + 1)) 0 dev0 ≠
      chunk_next_used_moment (withMoment stRun 1) 0 dev0 := by decide

/-- Claim C4 (amended): after warm-up, for a recorded pair and a moment
`k < total_moment` no smaller than every recorded moment of the pair, the
prediction at `total_moment + k` equals the prediction at `k` (both wrap to
`total_moment` plus the first recorded moment). -/
theorem c4_periodicity (st : EvictState) (cid : Nat) (dev : Device)
    (l : List Nat) (k : Nat)
    (hw : st.metronome.warmup = false)
    (hl : alookup st.chunk_access_dict (cid, dev) = some l)
    (_hk : k < st.metronome.total_moment)
    (hmax : ∀ m ∈ l, m ≤ k) :
    chunk_next_used_moment (withMoment st (st.metronome.total_moment + k))
        cid dev =
      chunk_next_used_moment (withMoment st k) cid dev := by
  have h1 : firstGreater l k = none := firstGreater_eq_none hmax
  have h2 : firstGreater l (st.metronome.total_moment + k) = none :=
    firstGreater_eq_none fun m hm => by have := hmax m hm; omega
  simp [chunk_next_used_moment, withMoment, hw, hl, h1, h2]

/-- Witness for claim C4 (amended) at `stRun` with `k = 2`. -/
theorem c4_periodicity_witness :
    chunk_next_used_moment
        (withMoment stRun (stRun.metronome.total_moment + 2)) 0 dev0 =
      chunk_next_used_moment (withMoment stRun 2) 0 dev0 :=
  c4_periodicity stRun 0 dev0 [0, 2] 2 rfl (by decide) (by decide) (by decide)

/-- Claim C5 is a code bug: `trace_release` tests membership in
`chunk_access_dict` instead of `chunk_release_dict`, so during warm-up a
release of a pair that has a recorded access but no recorded release
indexes a missing key of `chunk_release_dict` and raises `KeyError`. -/
theorem c5_trace_release_keyerror :
    stWarm.metronome.warmup = true ∧
    trace_release (trace_access stWarm 1 dev0) 1 dev0 = none := by decide

/-- Claim C6: when the total payload of the eligible chunks falls short of
`bytes_needed`, the call drains the whole queue and returns every eligible
chunk (the shortfall is only logged, never raised). -/
theorem c6_insufficient_room (st : EvictState) (m : List (Nat × Chunk))
    (need_bytes : Nat) (target_device : Device)
    (h : sumPayload m
        ((m.filter fun p => eligibleB target_device p.2).map Prod.fst) <
      need_bytes) :
    derive_eviction_list st m need_bytes target_device =
      sortedEligibleIds st m target_device ∧
    ∀ p ∈ m, eligibleB target_device p.2 = true →
      p.1 ∈ derive_eviction_list st m need_bytes target_device := by
  have hperm := sortedEligibleIds_perm st m target_device
  have hsum : sumPayload m (sortedEligibleIds st m target_device) =
      sumPayload m
        ((m.filter fun p => eligibleB target_device p.2).map Prod.fst) :=
    (hperm.map (payloadOf m)).sum_eq
  have hall : derive_eviction_list st m need_bytes target_device =
      sortedEligibleIds st m target_device := by
    unfold derive_eviction_list
    exact evictLoop_all m need_bytes _ 0 (by omega)
  refine ⟨hall, ?_⟩
  intro p hp he
  rw [hall]
  exact hperm.mem_iff.mpr
    (List.mem_map.mpr ⟨p, List.mem_filter.mpr ⟨hp, he⟩, rfl⟩)

/-- Witness for claim C6 at `stRun`, `mapOne` (4 eligible bytes) and
`bytes_needed = 100`. -/
theorem c6_insufficient_room_witness :
    derive_eviction_list stRun mapOne 100 dev0 =
      sortedEligibleIds stRun mapOne dev0 ∧
    ∀ p ∈ mapOne, eligibleB dev0 p.2 = true →
      p.1 ∈ derive_eviction_list stRun mapOne 100 dev0 :=
  c6_insufficient_room stRun mapOne 100 dev0 (by decide)

/-- Counterexample to claim C7 as stated: `paramEx` is chunk-based but was
built without requiring grad, so its grad `PSTensor` is the Python `None`
attribute; `set_state(HOLD, GRAD)` then raises on `None.state = ...` rather
than completing, and there is no post-state on which `access_tensor(GRAD)`
could return `None`. -/
theorem c7_counterexample :
    paramEx.param_type = ParamType.CHUNK_BASED ∧
    paramEx.grad_tensor = none ∧
    set_state paramEx TensorState.HOLD AccessType.GRAD = none ∧
    ¬ ∃ p2, set_state paramEx TensorState.HOLD AccessType.GRAD = some p2 ∧
        access_tensor p2 AccessType.GRAD = some none := by
  refine ⟨rfl, rfl, rfl, ?_⟩
  rintro ⟨p2, h, -⟩
  exact Option.noConfusion h

/-- Claim C7 (amended): on a chunk-based parameter whose accessed `PSTensor`
exists (for `GRAD` this means the param requires grad), `set_state` to any
state other than `COMPUTE` clears the payload handle so `access_tensor`
yields `None`, while `set_state` to `COMPUTE` leaves the stored tensor
reference unchanged. -/
theorem c7_set_state_invalidates (p : PSParameter) (s : TensorState)
    (a : AccessType)
    (hp : p.param_type = ParamType.CHUNK_BASED)
    (hg : a = AccessType.GRAD → p.grad_tensor.isSome = true) :
    (s ≠ TensorState.COMPUTE →
      ∃ p2, set_state p s a = some p2 ∧
        access_tensor p2 a = some none) ∧
    (∃ p2, set_state p TensorState.COMPUTE a = some p2 ∧
      access_tensor p2 a = access_tensor p a) := by
  obtain ⟨pt, dt, gt⟩ := p
  obtain rfl : pt = ParamType.CHUNK_BASED := hp
  cases a with
  | DATA =>
      constructor
      · intro hs
        exact ⟨_, rfl, by simp [access_tensor, access_ps_tensor, setStateT, hs]⟩
      · exact ⟨_, rfl, by simp [access_tensor, access_ps_tensor, setStateT]⟩
  | GRAD =>
      cases gt with
      | none => simp at hg
      | some t =>
          constructor
          · intro hs
            exact ⟨_, rfl,
              by simp [access_tensor, access_ps_tensor, setStateT, hs]⟩
          · exact ⟨_, rfl,
              by simp [access_tensor, access_ps_tensor, setStateT]⟩

/-- Witness for claim C7 on `paramEx`, whose data handle holds `5`. -/
theorem c7_set_state_invalidates_witness :
    (∃ p2, set_state paramEx TensorState.HOLD AccessType.DATA = some p2 ∧
      access_tensor p2 AccessType.DATA = some none) ∧
    (∃ p2, set_state paramEx TensorState.COMPUTE AccessType.DATA = some p2 ∧
      access_tensor p2 AccessType.DATA =
        access_tensor paramEx AccessType.DATA) := by
  have h := c7_set_state_invalidates paramEx TensorState.HOLD AccessType.DATA
    rfl (by decide)
  exact ⟨h.1 (by decide), h.2⟩

/-- Claim C8: outside warm-up, `trace_access` and `trace_release` return
without touching either trace dict. -/
theorem c8_trace_noop (st : EvictState) (cid : Nat) (dev : Device)
    (h : st.metronome.warmup = false) :
    trace_access st cid dev = st ∧ trace_release st cid dev = some st := by
  constructor
  · simp [trace_access, h]
  · simp [trace_release, h]

/-- Witness for claim C8 at the post-warm-up state `stRun`. -/
theorem c8_trace_noop_witness :
    trace_access stRun 5 dev0 = stRun ∧
    trace_release stRun 5 dev0 = some stRun :=
  c8_trace_noop stRun 5 dev0 rfl

/-- Claim C9: `CommInfo` construction asserts `offset < world_size`; above
the bound it fails, below it it succeeds and stores the offset with the
group tag. -/
theorem c9_comm_offset (world_size chunk_type group_id offset : Nat) :
    (world_size ≤ offset →
      commInfoInit world_size chunk_type group_id offset = none) ∧
    (offset < world_size →
      ∃ c, commInfoInit world_size chunk_type group_id offset = some c ∧
        c.offset = offset ∧ c.group.chunk_type = chunk_type ∧
        c.group.id = group_id) := by
  constructor
  · intro h
    simp [commInfoInit, Nat.not_lt.mpr h]
  · intro h
    refine ⟨⟨⟨chunk_type, group_id⟩, offset⟩, ?_, rfl, rfl, rfl⟩
    simp [commInfoInit, h]

/-- Witness for claim C9 at world size `4` with offsets `7` and `3`. -/
theorem c9_comm_offset_witness :
    commInfoInit 4 1 2 7 = none ∧
    ∃ c, commInfoInit 4 1 2 3 = some c ∧ c.offset = 3 ∧
      c.group.chunk_type = 1 ∧ c.group.id = 2 :=
  ⟨(c9_comm_offset 4 1 2 7).1 (by decide),
    (c9_comm_offset 4 1 2 3).2 (by decide)⟩

/-- Claim C10: in any construction run of `PSTensor`s from the global
counter, every later tensor's id is strictly greater than every earlier
one's, so no id is ever reused. -/
theorem c10_tensor_ids_strictly_increase (n c : Nat) :
    (mkPSTensors n c).Pairwise (fun a b => a.id < b.id) := by
  induction n generalizing c with
  | zero => exact List.Pairwise.nil
  | succ n ih =>
      refine List.Pairwise.cons ?_ (ih (c + 1))
      intro b hb
      have hb1 := mkPSTensors_id_ge n (c + 1) b hb
      have hidc : (mkPSTensor c).1.id = c := rfl
      omega

end PatrickStar
